import Mathlib

/-!
Shallow embedding of the BugzillaTracker repository core: the snapshot
store (load_bug_state / save_bug_state), the reconciler (check_bugzilla)
from notifier.py, and the Internal Tools filter from main.py.
-/

namespace BugzillaTracker

/-- A bug identifier as it arrives from the fetched JSON record.
Python code reads it with bug.get, so it may be absent, an integer or a
string; truthiness of the value decides whether the record is tracked. -/
inductive BugId where
  | missing
  | int (n : Int)
  | str (s : String)
deriving DecidableEq, Repr

/-- Python truthiness of the id value: None, 0 and the empty string are
falsy, everything else truthy.  Mirrors the test `if bug_id:`. -/
def BugId.truthy : BugId → Bool
  | .missing => false
  | .int n => n != 0
  | .str s => s != ""

/-- Python str(bug_id): the snapshot key.  Only used on truthy ids in the
code; str(None) is included for totality. -/
def BugId.toKey : BugId → String
  | .missing => "None"
  | .int n => toString n
  | .str s => s

/-- One fetched bug record, restricted to the fields the reconciler and the
main filter consume.  Option models an absent dictionary key. -/
structure Bug where
  id : BugId
  status : Option String
  product : Option String
deriving DecidableEq, Repr

/-- bug.get with the Unknown default, as the code does for status. -/
def statusOf (b : Bug) : String := b.status.getD "Unknown"

/-- bug.get with the Unknown default, as the code does for product. -/
def productOf (b : Bug) : String := b.product.getD "Unknown"

/-- The persisted mapping from bug id string to last known status, modelled
as an insertion-ordered association list (a Python dict of strings). -/
abbrev Snapshot := List (String × String)

/-- Python dict lookup: first binding of the key, none when absent. -/
def dget (k : String) : Snapshot → Option String
  | [] => none
  | (k1, v1) :: rest => if k1 = k then some v1 else dget k rest

/-- Python dict assignment: overwrite the first binding in place, append a
new binding at the end when the key is absent. -/
def dinsert (k v : String) : Snapshot → Snapshot
  | [] => [(k, v)]
  | (k1, v1) :: rest =>
      if k1 = k then (k, v) :: rest else (k1, v1) :: dinsert k v rest

/-- An element of the status_changed_bugs list.  The code appends the
fetched dict, adding the _previous_status key only on a status change; a
new bug carries no previous status. -/
structure ChangedBug where
  bug : Bug
  previousStatus : Option String
deriving DecidableEq, Repr

/-- An element of all_bugs_info: the (bug_id, current_status, product)
tuple the code collects for every truthy-id record. -/
abbrev BugInfo := BugId × String × String

/-- The data check_bugzilla produces: the returned pair plus the
current_states dict it passes to save_bug_state. -/
structure CheckResult where
  status_changed_bugs : List ChangedBug
  all_bugs_info : List BugInfo
  current_states : Snapshot
deriving DecidableEq, Repr

/-- The body of the for loop in check_bugzilla, one fetched record at a
time: update current_states, collect the info tuple, and classify against
previous_states (the dict loaded at the start, never the updated one). -/
def checkBugs (previous_states : Snapshot) :
    List Bug → Snapshot → CheckResult
  | [], current_states => ⟨[], [], current_states⟩
  | bug :: rest, current_states =>
      let current_status := statusOf bug
      if bug.id.truthy then
        let key := bug.id.toKey
        let res := checkBugs previous_states rest
          (dinsert key current_status current_states)
        let info : BugInfo := (bug.id, current_status, productOf bug)
        match dget key previous_states with
        | some prev =>
            if prev ≠ "" then
              if prev ≠ current_status then
                ⟨⟨bug, some prev⟩ :: res.status_changed_bugs,
                  info :: res.all_bugs_info, res.current_states⟩
              else
                ⟨res.status_changed_bugs,
                  info :: res.all_bugs_info, res.current_states⟩
            else
              ⟨⟨bug, none⟩ :: res.status_changed_bugs,
                info :: res.all_bugs_info, res.current_states⟩
        | none =>
            ⟨⟨bug, none⟩ :: res.status_changed_bugs,
              info :: res.all_bugs_info, res.current_states⟩
      else checkBugs previous_states rest current_states

/-- check_bugzilla from notifier.py with the previously loaded snapshot and
the fetched list made explicit inputs: current_states starts as a copy of
previous_states, then the loop runs over the fetched bugs. -/
def check_bugzilla (previous_states : Snapshot) (bugs : List Bug) :
    CheckResult :=
  checkBugs previous_states bugs previous_states

/-- The effect of the loop on current_states alone: every truthy-id record
upserts its status under its key, in fetch order. -/
def upserts (states : Snapshot) : List Bug → Snapshot
  | [] => states
  | bug :: rest =>
      upserts
        (if bug.id.truthy then
          dinsert bug.id.toKey (statusOf bug) states
        else states) rest

/-- The event one fetched record contributes, read off from the branch
structure of the loop: classification always compares against the prior
snapshot loaded at the start of the cycle. -/
def eventFor (previous_states : Snapshot) (bug : Bug) : Option ChangedBug :=
  if bug.id.truthy then
    match dget bug.id.toKey previous_states with
    | some prev =>
        if prev ≠ "" then
          if prev ≠ statusOf bug then some ⟨bug, some prev⟩ else none
        else some ⟨bug, none⟩
    | none => some ⟨bug, none⟩
  else none

/-- The info tuple one fetched record contributes. -/
def infoFor (bug : Bug) : Option BugInfo :=
  if bug.id.truthy then some (bug.id, statusOf bug, productOf bug)
  else none

/-- Status of the last truthy-id occurrence of a key in the fetched list,
none when the key is never fetched. -/
def lastStatus (sid : String) : List Bug → Option String
  | [] => none
  | bug :: rest =>
      match lastStatus sid rest with
      | some v => some v
      | none =>
          if bug.id.truthy ∧ bug.id.toKey = sid then some (statusOf bug)
          else none

/-- Left-biased choice on optional statuses. -/
def optOr : Option String → Option String → Option String
  | some v, _ => some v
  | none, b => b

/-- The list of snapshot keys the fetched records will write. -/
def fetchedKeys (bugs : List Bug) : List String :=
  (bugs.filter (fun b => b.id.truthy)).map (fun b => b.id.toKey)

/-- Lexicographic comparison of character lists, for the id ordering the
spec asserts over emitted events. -/
def charsLe : List Char → List Char → Bool
  | [], _ => true
  | _ :: _, [] => false
  | a :: as, b :: bs =>
      if a < b then true else if a = b then charsLe as bs else false

/-- Lexicographic order on snapshot keys. -/
def keyLe (a b : String) : Bool := charsLe a.data b.data

/-- Whether an event list is sorted by ascending bug id key. -/
def ascendingByKey : List ChangedBug → Bool
  | [] => true
  | [_] => true
  | a :: b :: rest =>
      keyLe a.bug.id.toKey b.bug.id.toKey && ascendingByKey (b :: rest)

/-- The observable condition of the state file when load_bug_state runs:
absent; present but unreadable, where open or read raises IOError;
present but holding bytes that cannot be decoded as text, where the read
inside json.load raises UnicodeDecodeError; or present with decodable
textual contents. -/
inductive StateFile where
  | missing
  | unreadable
  | undecodableBytes
  | content (s : String)

/-- What json.load returns on a successful decode: the id-to-status dict
the callers expect, or any other JSON value (array, string, number, ...),
which the code returns unchanged just the same. -/
inductive JsonValue where
  | dict (states : Snapshot)
  | other
deriving DecidableEq, Repr

/-- The observable outcome of one load_bug_state call: a returned value
together with whether the warning branch ran, or an exception escaping
the function. -/
inductive LoadOutcome where
  | returns (value : JsonValue) (warned : Bool)
  | raises
deriving DecidableEq, Repr

/-- load_bug_state from notifier.py.  The json.load call of the Python
standard library is abstracted as parseJson on the decoded text,
returning none exactly when decoding raises json.JSONDecodeError; the
except clause catches that and IOError, printing a warning and returning
the empty dict, and a missing file returns the empty dict silently.  A
UnicodeDecodeError raised while reading a byte-corrupt file is neither
json.JSONDecodeError nor IOError, so it escapes the except clause; a
successfully parsed value is returned as-is, dict or not, with no
warning. -/
def load_bug_state (parseJson : String → Option JsonValue) :
    StateFile → LoadOutcome
  | .missing => .returns (.dict []) false
  | .unreadable => .returns (.dict []) true
  | .undecodableBytes => .raises
  | .content s =>
      match parseJson s with
      | some v => .returns v false
      | none => .returns (.dict []) true

/-- A primitive file-system effect of save_bug_state on the state file. -/
inductive FileOp where
  | truncate
  | writeAll (s : String)

/-- The effects save_bug_state performs, in order: open(STATE_FILE, "w")
truncates the file in place, then json.dump writes the serialized text.
There is no temporary file and no rename. -/
def save_ops (text : String) : List FileOp :=
  [FileOp.truncate, FileOp.writeAll text]

/-- How one effect transforms the state file contents. -/
def applyOp (c : String) : FileOp → String
  | .truncate => ""
  | .writeAll s => c ++ s

/-- Every contents the state file passes through while the effects run,
starting from the old contents: the states an interruption can expose. -/
def contentsAfter (old : String) : List FileOp → List String
  | [] => [old]
  | op :: rest => old :: contentsAfter (applyOp old op) rest

/-- The contents after all effects complete. -/
def finalContent (old : String) (ops : List FileOp) : String :=
  ops.foldl applyOp old

/-- Atomicity of a write sequence: every intermediate contents is either
the old contents or the final contents, so an interruption can never
expose a half-written file. -/
def atomicWrite (old : String) (ops : List FileOp) : Prop :=
  ∀ c ∈ contentsAfter old ops, c = old ∨ c = finalContent old ops

/-- The filter main applies to every fetched segment before printing and
before notifying: drop bugs whose product is Internal Tools and whose
status is RESOLVED. -/
def filterSegment (bugs : List Bug) : List Bug :=
  bugs.filter
    (fun b => !(productOf b == "Internal Tools" && statusOf b == "RESOLVED"))

/-- The (id, status, product) tuples main derives from a filtered segment
and hands to the printer and to send_initial_list_to_google_chat. -/
def segmentBugsInfo (bugs : List Bug) : List BugInfo :=
  (filterSegment bugs).map (fun b => (b.id, statusOf b, productOf b))

section BasicLemmas

theorem dget_dinsert_self (k v : String) (s : Snapshot) :
    dget k (dinsert k v s) = some v := by
  induction s with
  | nil => simp [dget, dinsert]
  | cons p rest ih =>
      obtain ⟨k1, v1⟩ := p
      by_cases h : k1 = k
      · simp [dget, dinsert, h]
      · simp [dget, dinsert, h, ih]

theorem dget_dinsert_ne (k k1 v : String) (s : Snapshot) (h : k1 ≠ k) :
    dget k (dinsert k1 v s) = dget k s := by
  induction s with
  | nil => simp [dget, dinsert, h]
  | cons p rest ih =>
      obtain ⟨k2, v2⟩ := p
      by_cases h2 : k2 = k1
      · subst h2
        simp [dget, dinsert, h]
      · by_cases h3 : k2 = k
        · simp [dget, dinsert, h2, h3, Ne.symm h]
        · simp [dget, dinsert, h2, h3, ih]

theorem checkBugs_events (previous_states : Snapshot) (bugs : List Bug) :
    ∀ cs : Snapshot,
      (checkBugs previous_states bugs cs).status_changed_bugs
        = bugs.filterMap (eventFor previous_states) := by
  induction bugs with
  | nil => intro cs; simp [checkBugs]
  | cons bug rest ih =>
      intro cs
      by_cases ht : bug.id.truthy
      · simp only [checkBugs, ht, if_true, eventFor, List.filterMap_cons]
        cases hg : dget bug.id.toKey previous_states with
        | none => simp [ih]
        | some prev =>
            by_cases h1 : prev = ""
            · simp [h1, ih]
            · by_cases h2 : prev = statusOf bug
              · subst h2
                simp [h1, ih]
              · simp [h1, h2, ih]
      · simp [checkBugs, ht, eventFor, List.filterMap_cons, ih]

theorem checkBugs_infos (previous_states : Snapshot) (bugs : List Bug) :
    ∀ cs : Snapshot,
      (checkBugs previous_states bugs cs).all_bugs_info
        = bugs.filterMap infoFor := by
  induction bugs with
  | nil => intro cs; simp [checkBugs]
  | cons bug rest ih =>
      intro cs
      by_cases ht : bug.id.truthy
      · simp only [checkBugs, ht, if_true, infoFor, List.filterMap_cons]
        cases hg : dget bug.id.toKey previous_states with
        | none => simp [ih]
        | some prev =>
            by_cases h1 : prev = ""
            · simp [h1, ih]
            · by_cases h2 : prev = statusOf bug
              · subst h2
                simp [h1, ih]
              · simp [h1, h2, ih]
      · simp [checkBugs, ht, infoFor, List.filterMap_cons, ih]

theorem checkBugs_states (previous_states : Snapshot) (bugs : List Bug) :
    ∀ cs : Snapshot,
      (checkBugs previous_states bugs cs).current_states = upserts cs bugs := by
  induction bugs with
  | nil => intro cs; simp [checkBugs, upserts]
  | cons bug rest ih =>
      intro cs
      by_cases ht : bug.id.truthy
      · simp only [checkBugs, ht, if_true, upserts]
        cases hg : dget bug.id.toKey previous_states with
        | none => simp [ih]
        | some prev =>
            by_cases h1 : prev = ""
            · simp [h1, ih]
            · by_cases h2 : prev = statusOf bug
              · subst h2
                simp [h1, ih]
              · simp [h1, h2, ih]
      · simp [checkBugs, ht, upserts, ih]

theorem dget_upserts (sid : String) (bugs : List Bug) :
    ∀ s : Snapshot,
      dget sid (upserts s bugs) = optOr (lastStatus sid bugs) (dget sid s) := by
  induction bugs with
  | nil => intro s; simp [upserts, lastStatus, optOr]
  | cons bug rest ih =>
      intro s
      simp only [upserts, lastStatus]
      cases hl : lastStatus sid rest with
      | some v => simp [ih, hl, optOr]
      | none =>
          by_cases ht : bug.id.truthy
          · by_cases hk : bug.id.toKey = sid
            · simp [ih, hl, optOr, ht, hk, dget_dinsert_self]
            · simp [ih, hl, optOr, ht, hk, dget_dinsert_ne _ _ _ _ hk]
          · simp [ih, hl, optOr, ht]

end BasicLemmas

/-- C1: with an empty prior snapshot every fetched record with a truthy id
yields exactly one event carrying no previous status (a New event) and no
Changed event is produced: the event list is exactly the truthy-id records
in fetch order, each tagged with previousStatus none. -/
theorem C1_initial_run_all_new (bugs : List Bug) :
    (check_bugzilla [] bugs).status_changed_bugs
      = (bugs.filter (fun b => b.id.truthy)).map (fun b => ⟨b, none⟩) := by
  rw [check_bugzilla, checkBugs_events]
  induction bugs with
  | nil => simp
  | cons bug rest ih =>
      by_cases ht : bug.id.truthy
      · simp [eventFor, ht, dget, List.filterMap_cons, ih]
      · simp [eventFor, ht, List.filterMap_cons, ih]

section MoreLemmas

theorem eventFor_some (previous_states : Snapshot) (b : Bug) (e : ChangedBug)
    (h : eventFor previous_states b = some e) :
    e.bug = b ∧ b.id.truthy = true := by
  by_cases ht : b.id.truthy
  · refine ⟨?_, ht⟩
    unfold eventFor at h
    rw [if_pos ht] at h
    cases hg : dget b.id.toKey previous_states with
    | none => rw [hg] at h; cases h; rfl
    | some prev =>
        rw [hg] at h
        by_cases h1 : prev = ""
        · simp [h1] at h; cases h; rfl
        · by_cases h2 : prev = statusOf b
          · subst h2
            simp [h1] at h
          · simp [h1, h2] at h; cases h; rfl
  · simp [eventFor, ht] at h

theorem mem_fetchedKeys (bugs : List Bug) (b : Bug) (hb : b ∈ bugs)
    (ht : b.id.truthy = true) : b.id.toKey ∈ fetchedKeys bugs := by
  unfold fetchedKeys
  exact List.mem_map.mpr ⟨b, List.mem_filter.mpr ⟨hb, ht⟩, rfl⟩

theorem lastStatus_of_not_fetched (sid : String) (bugs : List Bug)
    (h : sid ∉ fetchedKeys bugs) : lastStatus sid bugs = none := by
  induction bugs with
  | nil => rfl
  | cons bug rest ih =>
      have hr : sid ∉ fetchedKeys rest := by
        intro hm
        apply h
        unfold fetchedKeys at hm ⊢
        by_cases ht : bug.id.truthy
        · simp [List.filter_cons, ht] at hm ⊢
          tauto
        · simpa [List.filter_cons, ht] using hm
      have hhead : ¬ (bug.id.truthy = true ∧ bug.id.toKey = sid) := by
        rintro ⟨ht, hk⟩
        exact h (hk ▸ mem_fetchedKeys (bug :: rest) bug (List.mem_cons_self bug rest) ht)
      simp [lastStatus, ih hr, hhead]

theorem lastStatus_some_mem (sid v : String) (bugs : List Bug)
    (h : lastStatus sid bugs = some v) :
    ∃ b2 ∈ bugs, b2.id.truthy = true ∧ b2.id.toKey = sid ∧ statusOf b2 = v := by
  induction bugs with
  | nil => simp [lastStatus] at h
  | cons bug rest ih =>
      cases hr : lastStatus sid rest with
      | some w =>
          have hsw : lastStatus sid (bug :: rest) = some w := by
            simp [lastStatus, hr]
          rw [hsw] at h
          cases h
          obtain ⟨b2, hmem, hprops⟩ := ih hr
          exact ⟨b2, List.mem_cons_of_mem bug hmem, hprops⟩
      | none =>
          have hsw : lastStatus sid (bug :: rest)
              = if bug.id.truthy = true ∧ bug.id.toKey = sid then
                  some (statusOf bug)
                else none := by
            simp [lastStatus, hr]
          rw [hsw] at h
          by_cases hc : bug.id.truthy = true ∧ bug.id.toKey = sid
          · rw [if_pos hc] at h
            cases h
            exact ⟨bug, List.mem_cons_self bug rest, hc.1, hc.2, rfl⟩
          · rw [if_neg hc] at h
            cases h

theorem lastStatus_isSome_of_mem (bugs : List Bug) (b : Bug) (hb : b ∈ bugs)
    (ht : b.id.truthy = true) : lastStatus b.id.toKey bugs ≠ none := by
  induction bugs with
  | nil => cases hb
  | cons bug rest ih =>
      unfold lastStatus
      cases hr : lastStatus b.id.toKey rest with
      | some w => simp
      | none =>
          rcases List.mem_cons.mp hb with hba | hbr
          · subst hba
            simp [ht]
          · exact absurd hr (ih hbr)

end MoreLemmas

/-- C2 counterexample: with prior snapshot mapping id 1 to the empty
status string and a fetched record of id 1 with status RESOLVED, the id is
present in the prior snapshot with a different status, yet the code takes
the falsy branch and classifies the record as New (no previous status), so
zero Changed events are emitted instead of the one the claim demands. -/
theorem C2_counterexample :
    (check_bugzilla [("1", "")]
        [⟨BugId.int 1, some "RESOLVED", none⟩]).status_changed_bugs
      = [⟨⟨BugId.int 1, some "RESOLVED", none⟩, none⟩]
    ∧ ¬ (((check_bugzilla [("1", "")]
        [⟨BugId.int 1, some "RESOLVED", none⟩]).status_changed_bugs.filter
          (fun e => e.previousStatus.isSome)).length = 1) := by
  constructor
  · rfl
  · decide

/-- C2 amended: for a fetched record whose id is present in the prior
snapshot with a non-empty prior status, a differing current status emits
exactly one Changed event carrying the prior status, and the next snapshot
maps the key to the current status; an identical status emits no event.
A record whose prior status is the empty string is classified as New. -/
theorem C2_changed_detection (previous_states : Snapshot) (b : Bug)
    (prev : String)
    (h1 : b.id.truthy = true)
    (h2 : dget b.id.toKey previous_states = some prev)
    (h3 : prev ≠ "") :
    (prev ≠ statusOf b →
      (check_bugzilla previous_states [b]).status_changed_bugs
          = [⟨b, some prev⟩]
      ∧ dget b.id.toKey (check_bugzilla previous_states [b]).current_states
          = some (statusOf b))
    ∧ (prev = statusOf b →
      (check_bugzilla previous_states [b]).status_changed_bugs = []) := by
  constructor
  · intro hne
    constructor
    · simp [check_bugzilla, checkBugs, h1, h2, h3, hne]
    · simp [check_bugzilla, checkBugs, h1, h2, h3, hne, dget_dinsert_self]
  · intro he
    subst he
    simp [check_bugzilla, checkBugs, h1, h2, h3]

/-- C2 witness at the concrete inputs of the spec example. -/
theorem C2_changed_detection_witness :
    (BugId.int 1).truthy = true
    ∧ dget (BugId.int 1).toKey [("1", "CONFIRMED")] = some "CONFIRMED"
    ∧ ("CONFIRMED" : String) ≠ ""
    ∧ ((check_bugzilla [("1", "CONFIRMED")]
          [⟨BugId.int 1, some "RESOLVED", none⟩]).status_changed_bugs
        = [⟨⟨BugId.int 1, some "RESOLVED", none⟩, some "CONFIRMED"⟩]
      ∧ dget (BugId.int 1).toKey
          (check_bugzilla [("1", "CONFIRMED")]
            [⟨BugId.int 1, some "RESOLVED", none⟩]).current_states
        = some "RESOLVED") :=
  ⟨by decide, by decide, by decide,
    (C2_changed_detection [("1", "CONFIRMED")]
      ⟨BugId.int 1, some "RESOLVED", none⟩ "CONFIRMED"
      (by decide) (by decide) (by decide)).1 (by decide)⟩

/-- C3: an id present in the prior snapshot but absent from the fetched
set keeps its prior status in the next snapshot, no emitted event carries
its key, and the next snapshot is exactly the prior snapshot with the
fetched ids upserted in fetch order. -/
theorem C3_retention (previous_states : Snapshot) (bugs : List Bug)
    (sid : String) (h : sid ∉ fetchedKeys bugs) :
    dget sid (check_bugzilla previous_states bugs).current_states
      = dget sid previous_states
    ∧ ((check_bugzilla previous_states bugs).status_changed_bugs.all
        (fun e => e.bug.id.toKey != sid)) = true
    ∧ (check_bugzilla previous_states bugs).current_states
      = upserts previous_states bugs := by
  refine ⟨?_, ?_, checkBugs_states previous_states bugs previous_states⟩
  · rw [check_bugzilla, checkBugs_states, dget_upserts,
      lastStatus_of_not_fetched sid bugs h]
    rfl
  · rw [List.all_eq_true]
    intro e he
    rw [check_bugzilla, checkBugs_events] at he
    obtain ⟨b, hb, hfb⟩ := List.mem_filterMap.mp he
    obtain ⟨hbug, htr⟩ := eventFor_some previous_states b e hfb
    rw [bne_iff_ne, hbug]
    intro hk
    exact h (hk ▸ mem_fetchedKeys bugs b hb htr)

/-- C3 witness at the concrete inputs of the spec example. -/
theorem C3_retention_witness :
    ("2" ∉ fetchedKeys [⟨BugId.int 1, some "RESOLVED", none⟩])
    ∧ (dget "2" (check_bugzilla [("1", "CONFIRMED"), ("2", "RESOLVED")]
          [⟨BugId.int 1, some "RESOLVED", none⟩]).current_states
        = dget "2" [("1", "CONFIRMED"), ("2", "RESOLVED")]
      ∧ ((check_bugzilla [("1", "CONFIRMED"), ("2", "RESOLVED")]
          [⟨BugId.int 1, some "RESOLVED", none⟩]).status_changed_bugs.all
            (fun e => e.bug.id.toKey != "2")) = true
      ∧ (check_bugzilla [("1", "CONFIRMED"), ("2", "RESOLVED")]
          [⟨BugId.int 1, some "RESOLVED", none⟩]).current_states
        = upserts [("1", "CONFIRMED"), ("2", "RESOLVED")]
            [⟨BugId.int 1, some "RESOLVED", none⟩]) :=
  ⟨by decide,
    C3_retention [("1", "CONFIRMED"), ("2", "RESOLVED")]
      [⟨BugId.int 1, some "RESOLVED", none⟩] "2" (by decide)⟩

/-- C4 counterexample: a fetch containing id 1 twice with statuses A then
B produces the snapshot mapping 1 to B; reconciling the same fetch a
second time against that snapshot emits a Changed event for the first
occurrence (B versus A), so the second pass is not empty. -/
theorem C4_counterexample :
    ¬ ((check_bugzilla
        (check_bugzilla []
          [⟨BugId.int 1, some "A", none⟩,
            ⟨BugId.int 1, some "B", none⟩]).current_states
        [⟨BugId.int 1, some "A", none⟩,
          ⟨BugId.int 1, some "B", none⟩]).status_changed_bugs = []) := by
  decide

/-- C4 amended: when all truthy-id occurrences of a key in the fetched
list agree on a non-empty status, reconciling the fetched list a second
time against the snapshot produced by the first reconciliation emits no
event.  The restriction is forced: duplicate ids with differing statuses,
or an empty status string, make the second pass emit events. -/
theorem C4_idempotence (previous_states : Snapshot) (bugs : List Bug)
    (hcons : ∀ b1 ∈ bugs, ∀ b2 ∈ bugs, b1.id.truthy = true →
        b2.id.truthy = true → b1.id.toKey = b2.id.toKey →
        statusOf b1 = statusOf b2)
    (hne : ∀ b ∈ bugs, b.id.truthy = true → statusOf b ≠ "") :
    (check_bugzilla (check_bugzilla previous_states bugs).current_states
        bugs).status_changed_bugs = [] := by
  rw [check_bugzilla, checkBugs_events]
  rw [List.filterMap_eq_nil_iff]
  intro b hb
  by_cases ht : b.id.truthy
  · have hsome : lastStatus b.id.toKey bugs ≠ none :=
      lastStatus_isSome_of_mem bugs b hb ht
    cases hl : lastStatus b.id.toKey bugs with
    | none => exact absurd hl hsome
    | some v =>
        obtain ⟨b2, hb2, ht2, hk2, hs2⟩ := lastStatus_some_mem _ _ _ hl
        have hvb : v = statusOf b := by
          rw [← hs2]
          exact hcons b2 hb2 b hb ht2 ht hk2
        have hget : dget b.id.toKey
            (check_bugzilla previous_states bugs).current_states
            = some (statusOf b) := by
          rw [check_bugzilla, checkBugs_states, dget_upserts, hl, hvb]
          rfl
        simp [eventFor, ht, hget, hne b hb ht]
  · simp [eventFor, ht]

/-- C4 witness: a single record with a consistent non-empty status. -/
theorem C4_idempotence_witness :
    (∀ b1 ∈ [(⟨BugId.int 1, some "A", none⟩ : Bug)],
      ∀ b2 ∈ [(⟨BugId.int 1, some "A", none⟩ : Bug)],
        b1.id.truthy = true → b2.id.truthy = true →
        b1.id.toKey = b2.id.toKey → statusOf b1 = statusOf b2)
    ∧ (∀ b ∈ [(⟨BugId.int 1, some "A", none⟩ : Bug)],
        b.id.truthy = true → statusOf b ≠ "")
    ∧ (check_bugzilla
        (check_bugzilla [] [⟨BugId.int 1, some "A", none⟩]).current_states
        [⟨BugId.int 1, some "A", none⟩]).status_changed_bugs = [] :=
  ⟨by decide, by decide,
    C4_idempotence [] [⟨BugId.int 1, some "A", none⟩]
      (by decide) (by decide)⟩

section StructureLemmas

theorem check_bugzilla_eq (previous_states : Snapshot) (bugs : List Bug) :
    check_bugzilla previous_states bugs
      = ⟨bugs.filterMap (eventFor previous_states),
          bugs.filterMap infoFor,
          upserts previous_states bugs⟩ := by
  rw [← checkBugs_events previous_states bugs previous_states,
      ← checkBugs_infos previous_states bugs previous_states,
      ← checkBugs_states previous_states bugs previous_states]
  rfl

theorem upserts_append (l1 l2 : List Bug) :
    ∀ s : Snapshot, upserts s (l1 ++ l2) = upserts (upserts s l1) l2 := by
  induction l1 with
  | nil => intro s; simp [upserts]
  | cons bug rest ih => intro s; simp [upserts, ih]

theorem events_map_bug_sublist (previous_states : Snapshot)
    (bugs : List Bug) :
    List.Sublist
      (((check_bugzilla previous_states bugs).status_changed_bugs).map
        (fun e => e.bug)) bugs := by
  rw [check_bugzilla, checkBugs_events]
  induction bugs with
  | nil => simp
  | cons bug rest ih =>
      rw [List.filterMap_cons]
      cases hf : eventFor previous_states bug with
      | none => exact List.Sublist.cons bug ih
      | some e =>
          rw [List.map_cons, (eventFor_some previous_states bug e hf).1]
          exact List.Sublist.cons₂ bug ih

end StructureLemmas

/-- C5 counterexample: with an empty prior snapshot and the records
fetched in the order id 2 then id 1, the emitted events keep that fetch
order, so the event list is not sorted by ascending id. -/
theorem C5_counterexample :
    ((check_bugzilla []
        [⟨BugId.int 2, some "CONFIRMED", none⟩,
          ⟨BugId.int 1, some "CONFIRMED", none⟩]).status_changed_bugs.map
      (fun e => e.bug.id)) = [BugId.int 2, BugId.int 1]
    ∧ ascendingByKey
        (check_bugzilla []
          [⟨BugId.int 2, some "CONFIRMED", none⟩,
            ⟨BugId.int 1, some "CONFIRMED", none⟩]).status_changed_bugs
      = false := by
  exact ⟨rfl, by decide⟩

/-- C5 amended: the emitted events follow fetch order, not id order: the
event list is exactly the per-record classification in fetch order, and
the underlying bug records form a fetch-ordered subsequence of the
fetched list.  No sorting by id happens anywhere in check_bugzilla. -/
theorem C5_fetch_order (previous_states : Snapshot) (bugs : List Bug) :
    (check_bugzilla previous_states bugs).status_changed_bugs
      = bugs.filterMap (eventFor previous_states)
    ∧ List.Sublist
        (((check_bugzilla previous_states bugs).status_changed_bugs).map
          (fun e => e.bug)) bugs :=
  ⟨checkBugs_events previous_states bugs previous_states,
    events_map_bug_sublist previous_states bugs⟩

/-- C6 counterexample: with prior snapshot mapping id 1 to A and a fetch
holding id 1 twice, first with status B and then with status A, the last
occurrence matches the prior status, so a classification by the last
occurrence only would emit nothing; the code classifies each occurrence
separately and emits a Changed event for the first one. -/
theorem C6_counterexample :
    (check_bugzilla [("1", "A")]
        [⟨BugId.int 1, some "B", none⟩,
          ⟨BugId.int 1, some "A", none⟩]).status_changed_bugs
      = [⟨⟨BugId.int 1, some "B", none⟩, some "A"⟩]
    ∧ ¬ ((check_bugzilla [("1", "A")]
        [⟨BugId.int 1, some "B", none⟩,
          ⟨BugId.int 1, some "A", none⟩]).status_changed_bugs = []) := by
  exact ⟨rfl, by decide⟩

/-- C6 amended: for duplicate ids in one fetch the last occurrence wins
for the next snapshot (the key maps to the status of the last truthy
occurrence), but event classification is per occurrence: every occurrence
is compared against the prior snapshot loaded at the start of the cycle,
so one id can emit several events in one cycle. -/
theorem C6_duplicate_ids (previous_states : Snapshot) (bugs : List Bug)
    (sid : String) :
    dget sid (check_bugzilla previous_states bugs).current_states
      = optOr (lastStatus sid bugs) (dget sid previous_states)
    ∧ (check_bugzilla previous_states bugs).status_changed_bugs
      = bugs.filterMap (eventFor previous_states) :=
  ⟨by rw [check_bugzilla, checkBugs_states]
      exact dget_upserts sid bugs previous_states,
    checkBugs_events previous_states bugs previous_states⟩

/-- C7 counterexample: the except clause catches only json.JSONDecodeError
and IOError, so a state file whose bytes cannot be decoded as text makes
load_bug_state raise UnicodeDecodeError instead of returning anything;
and contents that decode to a non-dict JSON value are returned as-is with
no warning, which differs from the empty snapshot with a warning that the
claim demands for a malformed store. -/
theorem C7_counterexample :
    load_bug_state (fun _ => none) StateFile.undecodableBytes
      = LoadOutcome.raises
    ∧ load_bug_state (fun _ => some JsonValue.other)
        (StateFile.content "[1, 2]")
      = LoadOutcome.returns JsonValue.other false
    ∧ LoadOutcome.returns JsonValue.other false
        ≠ LoadOutcome.returns (JsonValue.dict []) true := by
  exact ⟨rfl, rfl, by decide⟩

/-- C7 amended: load_bug_state returns the empty snapshot silently on a
missing state file, and logs a warning and returns the empty snapshot
when open or read raises IOError or when the decoded text fails to parse
as JSON; but it raises (an uncaught UnicodeDecodeError) when the file
bytes cannot be decoded as text, and a successfully decoded JSON value is
returned unchanged without a warning even when it is not a dict. -/
theorem C7_load_error_paths (parseJson : String → Option JsonValue)
    (s t : String) (v : JsonValue)
    (hbad : parseJson s = none) (hgood : parseJson t = some v) :
    load_bug_state parseJson StateFile.missing
      = LoadOutcome.returns (JsonValue.dict []) false
    ∧ load_bug_state parseJson StateFile.unreadable
      = LoadOutcome.returns (JsonValue.dict []) true
    ∧ load_bug_state parseJson (StateFile.content s)
      = LoadOutcome.returns (JsonValue.dict []) true
    ∧ load_bug_state parseJson StateFile.undecodableBytes
      = LoadOutcome.raises
    ∧ load_bug_state parseJson (StateFile.content t)
      = LoadOutcome.returns v false := by
  refine ⟨rfl, rfl, ?_, rfl, ?_⟩
  · simp [load_bug_state, hbad]
  · simp [load_bug_state, hgood]

/-- C7 witness with a decoder that rejects one contents and decodes the
other to a non-dict value. -/
theorem C7_load_error_paths_witness :
    ((fun x : String =>
        if x = "[1, 2]" then some JsonValue.other else none) "garbage"
      = none)
    ∧ ((fun x : String =>
        if x = "[1, 2]" then some JsonValue.other else none) "[1, 2]"
      = some JsonValue.other)
    ∧ (load_bug_state
          (fun x => if x = "[1, 2]" then some JsonValue.other else none)
          StateFile.missing
        = LoadOutcome.returns (JsonValue.dict []) false
      ∧ load_bug_state
          (fun x => if x = "[1, 2]" then some JsonValue.other else none)
          StateFile.unreadable
        = LoadOutcome.returns (JsonValue.dict []) true
      ∧ load_bug_state
          (fun x => if x = "[1, 2]" then some JsonValue.other else none)
          (StateFile.content "garbage")
        = LoadOutcome.returns (JsonValue.dict []) true
      ∧ load_bug_state
          (fun x => if x = "[1, 2]" then some JsonValue.other else none)
          StateFile.undecodableBytes
        = LoadOutcome.raises
      ∧ load_bug_state
          (fun x => if x = "[1, 2]" then some JsonValue.other else none)
          (StateFile.content "[1, 2]")
        = LoadOutcome.returns JsonValue.other false) :=
  ⟨by decide, by decide,
    C7_load_error_paths
      (fun x => if x = "[1, 2]" then some JsonValue.other else none)
      "garbage" "[1, 2]" JsonValue.other (by decide) (by decide)⟩

/-- C8 counterexample: save_bug_state truncates the state file in place
and then writes; between the two effects the file holds the empty string,
which is neither the old contents nor the new contents, so the write
sequence is not atomic at this concrete old and new snapshot text. -/
theorem C8_counterexample :
    ¬ atomicWrite "\x7b\"1\": \"A\"\x7d"
        (save_ops "\x7b\"1\": \"B\"\x7d") := by
  intro hatomic
  have h := hatomic "" (by simp [contentsAfter, save_ops, applyOp])
  revert h
  decide

/-- C8 amended: save_bug_state writes in place, not via a temporary file
and rename: its effect sequence passes through the empty-file state, so
an interruption mid-write can leave contents that are neither the old nor
the new snapshot; load_bug_state on such an undecodable file falls back
to the empty snapshot with a warning instead of raising. -/
theorem C8_in_place_write (old text : String)
    (parseJson : String → Option JsonValue)
    (h1 : old ≠ "") (h2 : text ≠ "") (h3 : parseJson "" = none) :
    ("" : String) ∈ contentsAfter old (save_ops text)
    ∧ ¬ atomicWrite old (save_ops text)
    ∧ finalContent old (save_ops text) = "" ++ text
    ∧ load_bug_state parseJson (StateFile.content "")
      = LoadOutcome.returns (JsonValue.dict []) true := by
  have hmem : ("" : String) ∈ contentsAfter old (save_ops text) := by
    simp [contentsAfter, save_ops, applyOp]
  have hfin : finalContent old (save_ops text) = "" ++ text := rfl
  refine ⟨hmem, ?_, hfin, by simp [load_bug_state, h3]⟩
  intro hatomic
  rcases hatomic "" hmem with hc | hc
  · exact h1 hc.symm
  · rw [hfin] at hc
    apply h2
    have hempty : ("" : String) ++ text = text := by
      apply String.ext
      simp [String.data_append]
    rw [hempty] at hc
    exact hc.symm

/-- C8 witness at concrete old and new snapshot texts. -/
theorem C8_in_place_write_witness :
    ("\x7b\"1\": \"A\"\x7d" : String) ≠ ""
    ∧ ("\x7b\"1\": \"B\"\x7d" : String) ≠ ""
    ∧ ((fun _ : String => (none : Option JsonValue)) "" = none)
    ∧ (("" : String) ∈ contentsAfter "\x7b\"1\": \"A\"\x7d"
          (save_ops "\x7b\"1\": \"B\"\x7d")
      ∧ ¬ atomicWrite "\x7b\"1\": \"A\"\x7d"
          (save_ops "\x7b\"1\": \"B\"\x7d")
      ∧ finalContent "\x7b\"1\": \"A\"\x7d"
          (save_ops "\x7b\"1\": \"B\"\x7d") = "" ++ "\x7b\"1\": \"B\"\x7d"
      ∧ load_bug_state (fun _ => none) (StateFile.content "")
          = LoadOutcome.returns (JsonValue.dict []) true) :=
  ⟨by decide, by decide, rfl,
    C8_in_place_write "\x7b\"1\": \"A\"\x7d" "\x7b\"1\": \"B\"\x7d"
      (fun _ => none) (by decide) (by decide) rfl⟩

/-- C9: the main filter keeps exactly the bugs that are not both of
product Internal Tools and status RESOLVED, preserving fetch order, and
no tuple handed to the printer or the chat webhook carries that product
and status combination. -/
theorem C9_internal_tools_filter (bugs : List Bug) :
    (∀ b : Bug, b ∈ filterSegment bugs ↔
      b ∈ bugs
      ∧ ¬ (productOf b = "Internal Tools" ∧ statusOf b = "RESOLVED"))
    ∧ List.Sublist (filterSegment bugs) bugs
    ∧ ((segmentBugsInfo bugs).all
        (fun t => !(t.2.2 == "Internal Tools" && t.2.1 == "RESOLVED")))
      = true := by
  refine ⟨?_, List.filter_sublist bugs, ?_⟩
  · intro b
    rw [filterSegment, List.mem_filter]
    simp
    tauto
  · rw [List.all_eq_true]
    intro t ht
    obtain ⟨b, hb, hbt⟩ := List.mem_map.mp ht
    rw [filterSegment, List.mem_filter] at hb
    subst hbt
    simpa using hb.2

/-- C10: a fetched record whose id value is falsy (the integer 0, the
empty string, or an absent key) contributes nothing: removing it from the
fetched list leaves the events, the info tuples and the saved snapshot
identical. -/
theorem C10_falsy_id_dropped (previous_states : Snapshot)
    (pre post : List Bug) (b : Bug) (h : b.id.truthy = false) :
    check_bugzilla previous_states (pre ++ b :: post)
      = check_bugzilla previous_states (pre ++ post)
    ∧ (BugId.int 0).truthy = false
    ∧ (BugId.str "").truthy = false
    ∧ BugId.missing.truthy = false := by
  refine ⟨?_, rfl, rfl, rfl⟩
  rw [check_bugzilla_eq, check_bugzilla_eq]
  have hev : eventFor previous_states b = none := by simp [eventFor, h]
  have hin : infoFor b = none := by simp [infoFor, h]
  simp [List.filterMap_append, List.filterMap_cons, hev, hin,
    upserts_append, upserts, h]

/-- C10 witness: a record whose id is the integer 0. -/
theorem C10_falsy_id_dropped_witness :
    ((⟨BugId.int 0, some "CONFIRMED", none⟩ : Bug).id.truthy = false)
    ∧ (check_bugzilla []
        ([] ++ (⟨BugId.int 0, some "CONFIRMED", none⟩ : Bug) :: [])
        = check_bugzilla [] ([] ++ [])
      ∧ (BugId.int 0).truthy = false
      ∧ (BugId.str "").truthy = false
      ∧ BugId.missing.truthy = false) :=
  ⟨by decide,
    C10_falsy_id_dropped [] [] [] ⟨BugId.int 0, some "CONFIRMED", none⟩
      (by decide)⟩

end BugzillaTracker
